import Mathlib

/-!
Shallow embedding of the inbound-message classification engine of an
automated customer-reply service (main.py together with the row shape of
db.py).  Text is modelled as List Char; each regular-expression matcher of
the source is modelled as an executable search function over character
lists (case-insensitive matching is modelled by mapping Char.toLower over
the text); the webhook decision cascade of the inbound handler is the
function classify below.
-/

/-- ASCII whitespace, the model of the regex class for whitespace and of
str.strip in the source. -/
def isSpaceChar (c : Char) : Bool :=
  c == ' ' || c == '\t' || c == '\n' || c == '\r' || c == '\x0b' || c == '\x0c'

/-- Word characters for regex word boundaries: letters, digits, underscore. -/
def isWordChar (c : Char) : Bool :=
  c.isAlpha || c.isDigit || c == '_'

def toLowerList (cs : List Char) : List Char := cs.map Char.toLower

/-- Model of substituting every whitespace run by a single space, as the
re.sub call inside clean_text does: the Boolean argument records whether the
previous character was whitespace. -/
def collapseAux : Bool → List Char → List Char
  | _, [] => []
  | prevSp, c :: cs =>
    if isSpaceChar c then
      if prevSp then collapseAux true cs else ' ' :: collapseAux true cs
    else c :: collapseAux false cs

/-- Remove the trailing whitespace run. -/
def dropTrailingWS : List Char → List Char
  | [] => []
  | c :: cs =>
    match dropTrailingWS cs with
    | [] => if isSpaceChar c then [] else [c]
    | d :: r => c :: d :: r

/-- Model of str.strip: remove leading and trailing whitespace. -/
def stripWS (cs : List Char) : List Char := dropTrailingWS (cs.dropWhile isSpaceChar)

/-- clean_text from main.py: collapse whitespace runs to a single space,
then strip. -/
def clean_text (cs : List Char) : List Char := stripWS (collapseAux false cs)

/-- enforce_length from main.py, at its default maximum length 240:
clean_text then truncate. -/
def enforce_length (text : List Char) : List Char := (clean_text text).take 240

/-! Invariants of collapsed text, used to show clean_text is idempotent. -/

/-- Every whitespace character of the list is a plain space. -/
def wsIsSp (cs : List Char) : Prop := ∀ c ∈ cs, isSpaceChar c = true → c = ' '

/-- No two adjacent spaces. -/
def noDbl : List Char → Bool
  | [] => true
  | [_] => true
  | c :: d :: r => !(c == ' ' && d == ' ') && noDbl (d :: r)

lemma noDbl_tail {c : Char} {l : List Char} (h : noDbl (c :: l) = true) :
    noDbl l = true := by
  cases l with
  | nil => rfl
  | cons d r =>
    rw [noDbl] at h
    exact (Bool.and_eq_true_iff.mp h).2

lemma noDbl_head {c d : Char} {r : List Char} (h : noDbl (c :: d :: r) = true) :
    (c == ' ' && d == ' ') = false := by
  rw [noDbl] at h
  have h1 := (Bool.and_eq_true_iff.mp h).1
  cases hcd : (c == ' ' && d == ' ') with
  | false => rfl
  | true => rw [hcd] at h1; simp at h1

lemma beq_space_false {c : Char} (h : isSpaceChar c = false) : (c == ' ') = false := by
  cases hc : (c == ' ') with
  | false => rfl
  | true =>
    have : c = ' ' := by exact beq_iff_eq.mp hc
    subst this
    simp [isSpaceChar] at h

lemma collapseAux_sp_true {c : Char} (cs : List Char) (h : isSpaceChar c = true) :
    collapseAux true (c :: cs) = collapseAux true cs := by
  simp [collapseAux, h]

lemma collapseAux_sp_false {c : Char} (cs : List Char) (h : isSpaceChar c = true) :
    collapseAux false (c :: cs) = ' ' :: collapseAux true cs := by
  simp [collapseAux, h]

lemma collapseAux_nsp {c : Char} (b : Bool) (cs : List Char) (h : isSpaceChar c = false) :
    collapseAux b (c :: cs) = c :: collapseAux false cs := by
  simp [collapseAux, h]

lemma collapseAux_true_head :
    ∀ (cs : List Char) (d : Char) (r : List Char),
      collapseAux true cs = d :: r → isSpaceChar d = false := by
  intro cs
  induction cs with
  | nil => intro d r h; simp [collapseAux] at h
  | cons c cs ih =>
    intro d r h
    cases hc : isSpaceChar c with
    | true =>
      rw [collapseAux_sp_true cs hc] at h
      exact ih d r h
    | false =>
      rw [collapseAux_nsp true cs hc] at h
      have hd : d = c := (List.cons.injEq _ _ _ _ ▸ h).1.symm
      rw [hd]; exact hc

lemma collapseAux_wsIsSp : ∀ (cs : List Char) (b : Bool), wsIsSp (collapseAux b cs) := by
  intro cs
  induction cs with
  | nil => intro b c hc; simp [collapseAux] at hc
  | cons c cs ih =>
    intro b x hx hxs
    cases hc : isSpaceChar c with
    | true =>
      cases b with
      | true =>
        rw [collapseAux_sp_true cs hc] at hx
        exact ih true x hx hxs
      | false =>
        rw [collapseAux_sp_false cs hc] at hx
        rcases List.mem_cons.mp hx with h1 | h1
        · exact h1
        · exact ih true x h1 hxs
    | false =>
      rw [collapseAux_nsp b cs hc] at hx
      rcases List.mem_cons.mp hx with h1 | h1
      · subst h1; rw [hc] at hxs; exact absurd hxs (by simp)
      · exact ih false x h1 hxs

lemma collapseAux_noDbl : ∀ (cs : List Char) (b : Bool), noDbl (collapseAux b cs) = true := by
  intro cs
  induction cs with
  | nil => intro b; rfl
  | cons c cs ih =>
    intro b
    cases hc : isSpaceChar c with
    | true =>
      cases b with
      | true =>
        rw [collapseAux_sp_true cs hc]
        exact ih true
      | false =>
        rw [collapseAux_sp_false cs hc]
        cases hR : collapseAux true cs with
        | nil => rfl
        | cons d r =>
          have hd : isSpaceChar d = false := collapseAux_true_head cs d r hR
          rw [noDbl]
          apply Bool.and_eq_true_iff.mpr
          constructor
          · have : (d == ' ') = false := beq_space_false hd
            simp [this]
          · rw [← hR]; exact ih true
    | false =>
      rw [collapseAux_nsp b cs hc]
      cases hR : collapseAux false cs with
      | nil => rfl
      | cons d r =>
        rw [noDbl]
        apply Bool.and_eq_true_iff.mpr
        constructor
        · have : (c == ' ') = false := beq_space_false hc
          simp [this]
        · rw [← hR]
          exact ih false

lemma wsIsSp_tail {c : Char} {l : List Char} (h : wsIsSp (c :: l)) : wsIsSp l :=
  fun x hx => h x (List.mem_cons_of_mem _ hx)

/-- On a list whose whitespace is single plain spaces, collapsing is the
identity. -/
lemma collapseAux_false_fix :
    ∀ cs : List Char, wsIsSp cs → noDbl cs = true → collapseAux false cs = cs := by
  intro cs
  induction cs with
  | nil => intro _ _; rfl
  | cons c rest ih =>
    intro hws hnd
    cases hc : isSpaceChar c with
    | false =>
      have hcond : ¬ isSpaceChar c = true := by rw [hc]; simp
      rw [collapseAux, if_neg hcond]
      rw [ih (wsIsSp_tail hws) (noDbl_tail hnd)]
    | true =>
      have hc' : c = ' ' := hws c (List.mem_cons_self _ _) hc
      subst hc'
      cases rest with
      | nil => rfl
      | cons d r =>
        have hdne : (d == ' ') = false := by
          have := noDbl_head hnd
          simpa using this
        have hdsp : isSpaceChar d = false := by
          cases hds : isSpaceChar d with
          | false => rfl
          | true =>
            have : d = ' ' := hws d (List.mem_cons_of_mem _ (List.mem_cons_self _ _)) hds
            subst this
            simp at hdne
        have ihr : collapseAux false (d :: r) = d :: r :=
          ih (wsIsSp_tail hws) (noDbl_tail hnd)
        rw [collapseAux_nsp false r hdsp] at ihr
        have hr : collapseAux false r = r := by
          exact (List.cons.injEq _ _ _ _ ▸ ihr).2
        rw [collapseAux_sp_false (d :: r) hc, collapseAux_nsp true r hdsp, hr]

lemma dropWhile_decomp (p : Char → Bool) :
    ∀ cs : List Char, ∃ t, t ++ cs.dropWhile p = cs := by
  intro cs
  induction cs with
  | nil => exact ⟨[], rfl⟩
  | cons c cs ih =>
    cases hp : p c with
    | true =>
      obtain ⟨t, ht⟩ := ih
      exact ⟨c :: t, by simp [List.dropWhile, hp, ht]⟩
    | false => exact ⟨[], by simp [List.dropWhile, hp]⟩

lemma dropWhile_head_false (p : Char → Bool) :
    ∀ (cs : List Char) (c : Char) (r : List Char),
      cs.dropWhile p = c :: r → p c = false := by
  intro cs
  induction cs with
  | nil => intro c r h; simp [List.dropWhile] at h
  | cons a l ih =>
    intro c r h
    cases hp : p a with
    | true => rw [List.dropWhile, hp] at h; exact ih c r h
    | false =>
      rw [List.dropWhile, hp] at h
      have : c = a := (List.cons.injEq _ _ _ _ ▸ h).1.symm
      rw [this]; exact hp

lemma dropTrailingWS_decomp : ∀ cs : List Char, ∃ t, dropTrailingWS cs ++ t = cs := by
  intro cs
  induction cs with
  | nil => exact ⟨[], rfl⟩
  | cons c l ih =>
    cases hd : dropTrailingWS l with
    | nil =>
      cases hc : isSpaceChar c with
      | true => exact ⟨c :: l, by rw [dropTrailingWS, hd]; simp [hc]⟩
      | false =>
        obtain ⟨t, ht⟩ := ih
        rw [hd] at ht
        exact ⟨t, by rw [dropTrailingWS, hd]; simp [hc]; exact ht⟩
    | cons d r =>
      obtain ⟨t, ht⟩ := ih
      rw [hd] at ht
      refine ⟨t, ?_⟩
      rw [dropTrailingWS, hd]
      simpa using ht

lemma dropTrailingWS_idem : ∀ cs : List Char, dropTrailingWS (dropTrailingWS cs) = dropTrailingWS cs := by
  intro cs
  induction cs with
  | nil => rfl
  | cons c l ih =>
    cases hd : dropTrailingWS l with
    | nil =>
      cases hc : isSpaceChar c with
      | true => rw [dropTrailingWS, hd]; simp [hc]; rfl
      | false =>
        rw [dropTrailingWS, hd]
        simp [hc]
        rw [dropTrailingWS]
        simp [hc]
        rfl
    | cons d r =>
      rw [dropTrailingWS, hd]
      rw [hd] at ih
      rw [dropTrailingWS]
      rw [ih]

lemma noDbl_append_left : ∀ (s t : List Char), noDbl (s ++ t) = true → noDbl s = true := by
  intro s
  induction s with
  | nil => intro t _; rfl
  | cons c s' ih =>
    intro t h
    cases s' with
    | nil => rfl
    | cons d s'' =>
      have h' : noDbl (c :: d :: (s'' ++ t)) = true := by simpa using h
      rw [noDbl]
      apply Bool.and_eq_true_iff.mpr
      refine ⟨?_, ih t (noDbl_tail h')⟩
      have := noDbl_head h'
      simp [this]

lemma noDbl_append_right : ∀ (t s : List Char), noDbl (t ++ s) = true → noDbl s = true := by
  intro t
  induction t with
  | nil => intro s h; simpa using h
  | cons c t' ih =>
    intro s h
    have h' : noDbl (c :: (t' ++ s)) = true := by simpa using h
    exact ih s (noDbl_tail h')

lemma wsIsSp_of_append_left {s t : List Char} (h : wsIsSp (s ++ t)) : wsIsSp s :=
  fun c hc => h c (List.mem_append_left _ hc)

lemma wsIsSp_of_append_right {s t : List Char} (h : wsIsSp (t ++ s)) : wsIsSp s :=
  fun c hc => h c (List.mem_append_right _ hc)

/-- clean_text is idempotent. -/
lemma clean_text_idem (x : List Char) : clean_text (clean_text x) = clean_text x := by
  have hy_ws : wsIsSp (collapseAux false x) := collapseAux_wsIsSp x false
  have hy_nd : noDbl (collapseAux false x) = true := collapseAux_noDbl x false
  obtain ⟨t1, ht1⟩ := dropWhile_decomp isSpaceChar (collapseAux false x)
  have hdw_ws : wsIsSp ((collapseAux false x).dropWhile isSpaceChar) := by
    rw [← ht1] at hy_ws; exact wsIsSp_of_append_right hy_ws
  have hdw_nd : noDbl ((collapseAux false x).dropWhile isSpaceChar) = true := by
    rw [← ht1] at hy_nd; exact noDbl_append_right t1 _ hy_nd
  obtain ⟨t2, ht2⟩ := dropTrailingWS_decomp ((collapseAux false x).dropWhile isSpaceChar)
  have hz_ws : wsIsSp (clean_text x) := by
    show wsIsSp (dropTrailingWS ((collapseAux false x).dropWhile isSpaceChar))
    rw [← ht2] at hdw_ws
    exact wsIsSp_of_append_left hdw_ws
  have hz_nd : noDbl (clean_text x) = true := by
    show noDbl (dropTrailingWS ((collapseAux false x).dropWhile isSpaceChar)) = true
    rw [← ht2] at hdw_nd
    exact noDbl_append_left _ t2 hdw_nd
  show stripWS (collapseAux false (clean_text x)) = clean_text x
  rw [collapseAux_false_fix (clean_text x) hz_ws hz_nd]
  show dropTrailingWS ((clean_text x).dropWhile isSpaceChar) = clean_text x
  have hdwz : (clean_text x).dropWhile isSpaceChar = clean_text x := by
    cases hz : clean_text x with
    | nil => simp
    | cons c r =>
      have hc : isSpaceChar c = false := by
        have hz' : dropTrailingWS ((collapseAux false x).dropWhile isSpaceChar) = c :: r := hz
        rw [hz'] at ht2
        have hhd : (collapseAux false x).dropWhile isSpaceChar = c :: (r ++ t2) := by
          simpa using ht2.symm
        exact dropWhile_head_false isSpaceChar _ c _ hhd
      simp [List.dropWhile, hc]
  rw [hdwz]
  show dropTrailingWS (dropTrailingWS ((collapseAux false x).dropWhile isSpaceChar)) =
    clean_text x
  rw [dropTrailingWS_idem]
  rfl

lemma take_of_len_le {l : List Char} (h : l.length ≤ 240) : l.take 240 = l :=
  List.take_of_length_le h

lemma take_240_ne_nil {l : List Char} (h : l ≠ []) : l.take 240 ≠ [] := by
  cases l with
  | nil => exact absurd rfl h
  | cons c r => simp [List.take]

lemma enforce_length_length_le (x : List Char) : (enforce_length x).length ≤ 240 := by
  unfold enforce_length
  simp [List.length_take]

/-!
Word-boundary keyword search, the model of the alternation regexes of
main.py with re.IGNORECASE (EMERGENCY_KEYWORDS, COMPLAINT_KEYWORDS,
HOURS_QUERY, LOCATION_QUERY, SERVICE_DISCOVERY, BOOKING_TRIGGER,
RETAIL_INTENT).  Every alternative of those regexes starts and ends with a
word character, so a word boundary before an alternative means the previous
character is absent or not a word character, and a boundary after means the
next character is absent or not a word character.
-/

/-- The regex word boundary before a match position whose first matched
character is a word character. -/
def prevNonWord : Option Char → Bool
  | none => true
  | some c => !isWordChar c

/-- The regex word boundary after a match whose last matched character is a
word character. -/
def nonWordOrEnd : List Char → Bool
  | [] => true
  | c :: _ => !isWordChar c

/-- If kw is literally the next characters of cs, return the remainder. -/
def dropKw : List Char → List Char → Option (List Char)
  | [], cs => some cs
  | _ :: _, [] => none
  | k :: ks, c :: cs => if c = k then dropKw ks cs else none

/-- The literal kw occurs here, followed by a word boundary. -/
def kwTail (kw cs : List Char) : Bool :=
  match dropKw kw cs with
  | some rest => nonWordOrEnd rest
  | none => false

/-- Some keyword of the list matches at this position with word boundaries
on both sides. -/
def kwHitAt (kws : List (List Char)) (prev : Option Char) (cs : List Char) : Bool :=
  prevNonWord prev && kws.any (fun kw => kwTail kw cs)

/-- Scan every position of the list, carrying the previous character. -/
def scanFrom (p : Option Char → List Char → Bool) : Option Char → List Char → Bool
  | _, [] => false
  | prev, c :: cs => p prev (c :: cs) || scanFrom p (some c) cs

/-- Model of re.search for a word-bounded alternation of literals. -/
def kwSearch (kws : List (List Char)) (cs : List Char) : Bool :=
  scanFrom (kwHitAt kws) none cs

/-! The keyword lists of main.py. -/

def EMERGENCY_KEYWORDS : List (List Char) :=
  ["911".data, "emergency".data, "ambulance".data, "police".data, "fire".data,
   "danger".data]

def HOURS_QUERY : List (List Char) :=
  ["open".data, "close".data, "hours".data, "open today".data, "open now".data,
   "available today".data, "available now".data]

def LOCATION_QUERY : List (List Char) :=
  ["address".data, "location".data, "where are you".data, "directions".data]

def SERVICE_DISCOVERY : List (List Char) :=
  ["what services".data, "services do you offer".data, "what do you offer".data,
   "what do you do".data, "services provided".data, "service list".data]

def BOOKING_TRIGGER : List (List Char) :=
  ["book".data, "booking".data, "schedule".data, "appointment".data, "appt".data,
   "reserve".data]

def COMPLAINT_KEYWORDS : List (List Char) :=
  ["refund".data, "return".data, "complain".data, "complaint".data, "bad".data,
   "terrible".data, "awful".data, "unhappy".data, "angry".data, "upset".data,
   "frustrated".data, "not happy".data, "issue".data, "problem".data,
   "charged".data, "scam".data]

def RETAIL_INTENT : List (List Char) :=
  ["do you sell".data, "do you have".data, "do u sell".data, "do u have".data,
   "in stock".data, "available in stock".data, "carry".data, "selling".data]

def EMERGENCY_KEYWORDS_search (t : List Char) : Bool :=
  kwSearch EMERGENCY_KEYWORDS (toLowerList t)

def HOURS_QUERY_search (t : List Char) : Bool :=
  kwSearch HOURS_QUERY (toLowerList t)

def LOCATION_QUERY_search (t : List Char) : Bool :=
  kwSearch LOCATION_QUERY (toLowerList t)

def SERVICE_DISCOVERY_search (t : List Char) : Bool :=
  kwSearch SERVICE_DISCOVERY (toLowerList t)

def BOOKING_TRIGGER_search (t : List Char) : Bool :=
  kwSearch BOOKING_TRIGGER (toLowerList t)

def COMPLAINT_KEYWORDS_search (t : List Char) : Bool :=
  kwSearch COMPLAINT_KEYWORDS (toLowerList t)

def RETAIL_INTENT_search (t : List Char) : Bool :=
  kwSearch RETAIL_INTENT (toLowerList t)

/-!
The numeric regexes of main.py: BOOKING_DETAILS_HINT matches a word-bounded
run of six or more digits, or a word-bounded 3-3-4 digit group with optional
single hyphen or space separators; PHONE_LIKE matches a word-bounded
optional plus, a digit, six or more characters from digits, hyphen and
whitespace, and a final digit.  Backtracking existence is modelled by
trying every choice of the optional parts.
-/

/-- Exactly n leading digits, returning the remainder. -/
def takeDigits : Nat → List Char → Option (List Char)
  | 0, cs => some cs
  | _ + 1, [] => none
  | n + 1, c :: cs => if c.isDigit then takeDigits n cs else none

/-- Length of the leading digit run. -/
def digitRunLen : List Char → Nat
  | [] => 0
  | c :: cs => if c.isDigit then digitRunLen cs + 1 else 0

/-- Remainders after consuming an optional single hyphen-or-space separator. -/
def sepOptions : List Char → List (List Char)
  | [] => [[]]
  | c :: cs => if c == '-' || c == ' ' then [cs, c :: cs] else [c :: cs]

/-- First alternative of BOOKING_DETAILS_HINT: six or more digits up to a
word boundary. -/
def hintBranch1 (cs : List Char) : Bool :=
  decide (6 ≤ digitRunLen cs) && nonWordOrEnd (cs.drop (digitRunLen cs))

/-- Second alternative of BOOKING_DETAILS_HINT: a 3-3-4 digit group with
optional separators, up to a word boundary. -/
def hintBranch2 (cs : List Char) : Bool :=
  match takeDigits 3 cs with
  | none => false
  | some r1 =>
    (sepOptions r1).any fun r2 =>
      match takeDigits 3 r2 with
      | none => false
      | some r3 =>
        (sepOptions r3).any fun r4 =>
          match takeDigits 4 r4 with
          | none => false
          | some r5 => nonWordOrEnd r5

def hintAt (prev : Option Char) (cs : List Char) : Bool :=
  prevNonWord prev && (hintBranch1 cs || hintBranch2 cs)

def BOOKING_DETAILS_HINT_search (cs : List Char) : Bool := scanFrom hintAt none cs

/-- Character class of the PHONE_LIKE middle run: digit, hyphen or
whitespace. -/
def isPhoneRunChar (c : Char) : Bool := c.isDigit || c == '-' || isSpaceChar c

/-- After the first digit of PHONE_LIKE: six or more run characters, then a
digit, then a word boundary; k counts run characters consumed so far. -/
def phoneTail : Nat → List Char → Bool
  | _, [] => false
  | k, c :: cs =>
      (decide (6 ≤ k) && c.isDigit && nonWordOrEnd cs) ||
      (isPhoneRunChar c && phoneTail (k + 1) cs)

/-- PHONE_LIKE matches at this position.  If the match starts with a plus,
the word boundary before it requires the previous character to be a word
character, since the plus itself is not one. -/
def phoneAt (prev : Option Char) (cs : List Char) : Bool :=
  match cs with
  | [] => false
  | c :: cs' =>
    if c = '+' then
      !prevNonWord prev &&
      (match cs' with
       | d :: ds => d.isDigit && phoneTail 0 ds
       | [] => false)
    else
      prevNonWord prev && c.isDigit && phoneTail 0 cs'

def PHONE_LIKE_search (cs : List Char) : Bool := scanFrom phoneAt none cs

/-!
The DATE_ONLY and TIME_ONLY regexes of main.py, applied by
looks_like_date_or_time_only to the lowercased cleaned message.
-/

def MONTH_WORDS : List (List Char) :=
  ["jan".data, "january".data, "feb".data, "february".data, "mar".data,
   "march".data, "apr".data, "april".data, "may".data, "jun".data, "june".data,
   "jul".data, "july".data, "aug".data, "august".data, "sep".data, "sept".data,
   "september".data, "oct".data, "october".data, "nov".data, "november".data,
   "dec".data, "december".data]

/-- Remainders after consuming zero or more leading whitespace characters. -/
def wsDrops : List Char → List (List Char)
  | [] => [[]]
  | c :: cs => if isSpaceChar c then (c :: cs) :: wsDrops cs else [c :: cs]

/-- Remainders after consuming one or two digits. -/
def afterOneTwoDigits : List Char → List (List Char)
  | [] => []
  | c :: cs =>
    if c.isDigit then
      match cs with
      | d :: ds => if d.isDigit then [ds, d :: ds] else [d :: ds]
      | [] => [[]]
    else []

def ORD_SUFFIXES : List (List Char) := ["st".data, "nd".data, "rd".data, "th".data]

/-- Remainders after consuming an optional ordinal suffix. -/
def ordDrops (cs : List Char) : List (List Char) :=
  cs :: ORD_SUFFIXES.filterMap (fun s => dropKw s cs)

/-- One or two digits, an optional ordinal suffix, then a word boundary. -/
def dateNumTail (cs : List Char) : Bool :=
  (afterOneTwoDigits cs).any fun r => (ordDrops r).any nonWordOrEnd

/-- DATE_ONLY matches at this position: a month word, optional whitespace
and a day number with optional suffix; or a bare one-or-two digit number
with optional suffix; or tomorrow; or today. -/
def dateAt (prev : Option Char) (cs : List Char) : Bool :=
  prevNonWord prev &&
  ((MONTH_WORDS.any fun m =>
      match dropKw m cs with
      | some r => (wsDrops r).any dateNumTail
      | none => false) ||
   dateNumTail cs ||
   kwTail "tomorrow".data cs ||
   kwTail "today".data cs)

def DATE_ONLY_search (cs : List Char) : Bool := scanFrom dateAt none cs

/-- Remainders after consuming an optional colon plus two digits. -/
def colonDrops : List Char → List (List Char)
  | ':' :: d1 :: d2 :: rest =>
    if d1.isDigit && d2.isDigit then [':' :: d1 :: d2 :: rest, rest]
    else [':' :: d1 :: d2 :: rest]
  | cs => [cs]

/-- TIME_ONLY matches at this position: one or two digits, optional colon
and minutes, optional whitespace, then am or pm with a word boundary; or
noon; or midnight. -/
def timeAt (prev : Option Char) (cs : List Char) : Bool :=
  prevNonWord prev &&
  (((afterOneTwoDigits cs).any fun r =>
      (colonDrops r).any fun r2 =>
        (wsDrops r2).any fun r3 =>
          kwTail "am".data r3 || kwTail "pm".data r3) ||
   kwTail "noon".data cs ||
   kwTail "midnight".data cs)

def TIME_ONLY_search (cs : List Char) : Bool := scanFrom timeAt none cs

/-!
Tokenisation helpers: splitRuns models re.split on a separator class with
empty pieces discarded, which is also what str.split does for whitespace;
splitSep models str.split on a single separator character, keeping empty
pieces.
-/

def splitRunsAux (sep : Char → Bool) (cur : List Char) : List Char → List (List Char)
  | [] => if cur.isEmpty then [] else [cur.reverse]
  | c :: cs =>
    if sep c then
      if cur.isEmpty then splitRunsAux sep [] cs
      else cur.reverse :: splitRunsAux sep [] cs
    else splitRunsAux sep (c :: cur) cs

def splitRuns (sep : Char → Bool) (cs : List Char) : List (List Char) :=
  splitRunsAux sep [] cs

def splitSepAux (sep : Char) (cur : List Char) : List Char → List (List Char)
  | [] => [cur.reverse]
  | c :: cs =>
    if c == sep then cur.reverse :: splitSepAux sep [] cs
    else splitSepAux sep (c :: cur) cs

def splitSep (sep : Char) (cs : List Char) : List (List Char) := splitSepAux sep [] cs

/-! The pure matcher helpers of main.py. -/

/-- looks_like_question from main.py: the stripped text contains a question
mark, or its lowercase form starts with an interrogative or politeness
token. -/
def looks_like_question (text : List Char) : Bool :=
  (stripWS text).any (fun c => c == '?') ||
  (["what".data, "which".data, "when".data, "how".data, "can you".data,
    "could you".data, "please".data].any
    (fun p => (dropKw p (toLowerList (stripWS text))).isSome))

/-- is_greeting from main.py. -/
def is_greeting (text : List Char) : Bool :=
  decide (toLowerList (clean_text text) = "hi".data) ||
  decide (toLowerList (clean_text text) = "hello".data) ||
  decide (toLowerList (clean_text text) = "hey".data)

/-- is_thanks from main.py. -/
def is_thanks (text : List Char) : Bool :=
  decide (toLowerList (clean_text text) = "thanks".data) ||
  decide (toLowerList (clean_text text) = "thank you".data) ||
  decide (toLowerList (clean_text text) = "thx".data) ||
  decide (toLowerList (clean_text text) = "ty".data)

/-- A token consisting only of digits, hyphens, plus and parentheses, the
fullmatch test of likely_booking_details. -/
def isNumLikeToken (w : List Char) : Bool :=
  w.all (fun c => c.isDigit || c == '-' || c == '+' || c == '(' || c == ')')

/-- likely_booking_details from main.py: cleaned text is non-empty, has a
phone-like digit group, and at least two tokens that are not purely
numeric-ish. -/
def likely_booking_details (text : List Char) : Bool :=
  !(clean_text text).isEmpty &&
  (BOOKING_DETAILS_HINT_search (clean_text text) || PHONE_LIKE_search (clean_text text)) &&
  decide (2 ≤ ((splitRuns (fun c => c == ',' || isSpaceChar c) (clean_text text)).filter
      (fun w => !isNumLikeToken w)).length)

/-- looks_like_date_or_time_only from main.py: the lowercased cleaned text
is non-empty, contains a date or time token, and has at most five
whitespace-separated words. -/
def looks_like_date_or_time_only (text : List Char) : Bool :=
  !(toLowerList (clean_text text)).isEmpty &&
  (DATE_ONLY_search (toLowerList (clean_text text)) ||
   TIME_ONLY_search (toLowerList (clean_text text))) &&
  decide ((splitRuns isSpaceChar (toLowerList (clean_text text))).length ≤ 5)

/-! The canned reply strings of BUSINESS_CONTEXT in main.py. -/

def greeting : List Char := "Hello! How can we assist you today?".data

def thanks_reply : List Char :=
  "You’re welcome! Let us know if you need any assistance.".data

def short_message_clarify : List Char :=
  "Could you please share a bit more detail so I can help?".data

def hours_unknown_message : List Char :=
  "I don’t have the hours handy right now, but I can check with the owner and get back to you shortly.".data

def location_unknown_message : List Char :=
  "I don’t have the address handy right now, but I can check with the owner and follow up shortly.".data

def service_discovery_message : List Char :=
  "We offer a range of services. Could you let me know what you’re looking for so I can help further?".data

def retail_redirect_message : List Char :=
  "We don’t carry retail products, but I’d be happy to help with our services. What can I assist you with?".data

def booking_question_template : List Char :=
  "To help with your booking request, please provide the service you’d like to book, your name, and the best contact number.".data

def booking_details_received : List Char :=
  "Thanks — got it! I’ll pass this to the owner to confirm availability and follow up shortly.".data

def handoff_normal : List Char :=
  "Thanks — got it! I’ll pass this to the owner and they’ll follow up shortly.".data

def handoff_complaint : List Char :=
  "I’m sorry about that. I’ll pass this to the owner so they can follow up with you shortly.".data

def emergency_message : List Char :=
  "If this is an emergency, please contact local emergency services immediately.".data

/-!
Data model: a row of the messages table of db.py, as read back by
get_last_message_for_sender, restricted to the two fields the inbound
handler consults.  log_message stores tags joined by commas, so the tags
field here is the stored comma-joined string.
-/

structure LastRow where
  reply_text : List Char
  tags : List Char
deriving DecidableEq

/-- The stored tags string of the most recent exchange, or empty when
there is none. -/
def last_tags_str_of : Option LastRow → List Char
  | some r => r.tags
  | none => []

/-- last_tags in the inbound handler: split the stored string on commas,
strip each piece, and keep the non-empty ones. -/
def last_tags_of (last : Option LastRow) : List (List Char) :=
  ((splitSep ',' (last_tags_str_of last)).map stripWS).filter (fun t => !t.isEmpty)

/-- last_reply in the inbound handler: the stored reply text, cleaned. -/
def last_reply_of : Option LastRow → List Char
  | some r => clean_text r.reply_text
  | none => clean_text []

/-- last_was_booking_question in the inbound handler: the prior tags
contain booking, and the prior reply is the canonical booking prompt or
looks like a question. -/
def last_was_booking_question (last : Option LastRow) : Bool :=
  (last_tags_of last).any (fun t => decide (t = "booking".data)) &&
  (decide (last_reply_of last = booking_question_template) ||
   looks_like_question (last_reply_of last))

/-- The classification outcome of one inbound message: the reply before
final length enforcement, the tag list, and the handoff flag. -/
structure Outcome where
  reply_text : List Char
  tags : List (List Char)
  needs_handoff : Bool
deriving DecidableEq

/--
The decision cascade of the inbound webhook handler of main.py, applied to
the cleaned incoming text.  The generative fallback is an explicit
parameter: none models a missing client, some (Except.error ()) models a
call that raises, and some (Except.ok content) models a call returning the
given text (with a None content already mapped to the empty string, as the
source does).  The nested conditional of the lookback rule is flattened
into one guard, which is equivalent because its inner branch and the chain
continuation coincide with the flat form.
-/
def cascadeSteps (last : Option LastRow) (llm : Option (Except Unit (List Char)))
    (incoming : List Char) : Outcome :=
  if !incoming.isEmpty && likely_booking_details incoming then
    ⟨booking_details_received, ["booking".data], true⟩
  else if last_was_booking_question last &&
      (!incoming.isEmpty &&
       (BOOKING_DETAILS_HINT_search incoming ||
        decide (2 ≤ (splitRuns isSpaceChar incoming).length))) then
    ⟨booking_details_received, ["booking".data], true⟩
  else if incoming.length < 3 then
    ⟨short_message_clarify, ["general".data], false⟩
  else if is_thanks incoming then
    ⟨thanks_reply, ["general".data], false⟩
  else if is_greeting incoming then
    ⟨greeting, ["general".data], false⟩
  else if EMERGENCY_KEYWORDS_search incoming then
    ⟨emergency_message, ["emergency".data], true⟩
  else if COMPLAINT_KEYWORDS_search incoming then
    ⟨handoff_complaint, ["complaint".data], true⟩
  else if looks_like_date_or_time_only incoming then
    ⟨booking_question_template, ["booking".data], true⟩
  else if HOURS_QUERY_search incoming then
    ⟨hours_unknown_message, ["hours".data], true⟩
  else if LOCATION_QUERY_search incoming then
    ⟨location_unknown_message, ["location".data], true⟩
  else if SERVICE_DISCOVERY_search incoming then
    ⟨service_discovery_message, ["service_question".data], false⟩
  else if BOOKING_TRIGGER_search incoming then
    ⟨booking_question_template, ["booking".data], true⟩
  else if RETAIL_INTENT_search incoming then
    ⟨retail_redirect_message, ["service_question".data], false⟩
  else
    match llm with
    | some res =>
      if !incoming.isEmpty then
        match res with
        | Except.ok content =>
          ⟨(if (clean_text (stripWS content)).isEmpty then greeting
            else clean_text (stripWS content)), ["general".data], false⟩
        | Except.error _ => ⟨handoff_normal, ["other".data], true⟩
      else ⟨handoff_normal, ["other".data], true⟩
    | none => ⟨handoff_normal, ["other".data], true⟩

/-- The inbound webhook of main.py at the classification level: clean the
body, then run the cascade with the lookback row of the sender. -/
def classify (last : Option LastRow) (llm : Option (Except Unit (List Char)))
    (body : List Char) : Outcome :=
  cascadeSteps last llm (clean_text body)

/-- reply_and_log applies enforce_length to the chosen reply before
persisting it, so this is the reply text of the stored Exchange. -/
def logged_reply (o : Outcome) : List Char := enforce_length o.reply_text

/-- The important tag set of send_alert_if_needed in main.py. -/
def IMPORTANT_TAGS : List (List Char) :=
  ["booking".data, "hours".data, "location".data, "complaint".data,
   "emergency".data]

/-- send_alert_if_needed from main.py, modelled as the decision whether the
owner alert email is attempted: it returns early when needs_handoff is
false, or when no tag of the list is in the important set. -/
def send_alert_if_needed (tags : List (List Char)) (needs_handoff : Bool) : Bool :=
  if !needs_handoff then false
  else if !(tags.any fun t => decide (t ∈ IMPORTANT_TAGS)) then false
  else true

/-! Supporting lemmas about the keyword search. -/

lemma dropKw_len :
    ∀ (kw cs rest : List Char), dropKw kw cs = some rest →
      kw.length + rest.length = cs.length := by
  intro kw
  induction kw with
  | nil =>
    intro cs rest h
    simp [dropKw] at h
    subst h
    simp
  | cons k ks ih =>
    intro cs rest h
    cases cs with
    | nil => simp [dropKw] at h
    | cons c cs' =>
      rw [dropKw] at h
      by_cases hck : c = k
      · rw [if_pos hck] at h
        have := ih cs' rest h
        simp only [List.length_cons]
        omega
      · rw [if_neg hck] at h
        exact absurd h (by simp)

lemma scanFrom_kw_len (kws : List (List Char)) :
    ∀ (cs : List Char) (prev : Option Char),
      scanFrom (kwHitAt kws) prev cs = true →
      ∃ kw ∈ kws, kw.length ≤ cs.length := by
  intro cs
  induction cs with
  | nil => intro prev h; simp [scanFrom] at h
  | cons c cs ih =>
    intro prev h
    rw [scanFrom] at h
    rcases Bool.or_eq_true_iff.mp h with h1 | h2
    · rcases List.any_eq_true.mp ((Bool.and_eq_true_iff.mp h1).2) with ⟨kw, hmem, htail⟩
      refine ⟨kw, hmem, ?_⟩
      unfold kwTail at htail
      cases hdk : dropKw kw (c :: cs) with
      | none => rw [hdk] at htail; simp at htail
      | some rest =>
        have := dropKw_len kw (c :: cs) rest hdk
        simp only [List.length_cons] at this ⊢
        omega
    · obtain ⟨kw, hmem, hle⟩ := ih (some c) h2
      exact ⟨kw, hmem, by simp only [List.length_cons]; omega⟩

/-- A successful emergency-keyword search needs at least three characters,
the length of the shortest keyword. -/
lemma emergency_min_len {x : List Char}
    (h : EMERGENCY_KEYWORDS_search x = true) : 3 ≤ x.length := by
  unfold EMERGENCY_KEYWORDS_search kwSearch at h
  obtain ⟨kw, hmem, hle⟩ := scanFrom_kw_len EMERGENCY_KEYWORDS (toLowerList x) none h
  have hx : (toLowerList x).length = x.length := List.length_map _ _
  have h3 : 3 ≤ kw.length := by
    simp [EMERGENCY_KEYWORDS] at hmem
    rcases hmem with rfl | rfl | rfl | rfl | rfl | rfl <;> decide
  omega

/-- A text equal to one of the gratitude phrases contains no emergency
keyword, so an emergency hit rules out the thanks matcher; the hypothesis
that the text is already clean holds for the cascade input. -/
lemma no_thanks_of_emergency (x : List Char) (hc : clean_text x = x)
    (hem : EMERGENCY_KEYWORDS_search x = true) : is_thanks x = false := by
  cases h : is_thanks x with
  | false => rfl
  | true =>
    exfalso
    unfold is_thanks at h
    rw [hc] at h
    unfold EMERGENCY_KEYWORDS_search at hem
    rcases Bool.or_eq_true_iff.mp h with h1 | h1
    · rcases Bool.or_eq_true_iff.mp h1 with h2 | h2
      · rcases Bool.or_eq_true_iff.mp h2 with h3 | h3
        · rw [decide_eq_true_iff.mp h3] at hem; exact absurd hem (by decide)
        · rw [decide_eq_true_iff.mp h3] at hem; exact absurd hem (by decide)
      · rw [decide_eq_true_iff.mp h2] at hem; exact absurd hem (by decide)
    · rw [decide_eq_true_iff.mp h1] at hem; exact absurd hem (by decide)

/-- A text equal to one of the greeting phrases contains no emergency
keyword. -/
lemma no_greeting_of_emergency (x : List Char) (hc : clean_text x = x)
    (hem : EMERGENCY_KEYWORDS_search x = true) : is_greeting x = false := by
  cases h : is_greeting x with
  | false => rfl
  | true =>
    exfalso
    unfold is_greeting at h
    rw [hc] at h
    unfold EMERGENCY_KEYWORDS_search at hem
    rcases Bool.or_eq_true_iff.mp h with h1 | h1
    · rcases Bool.or_eq_true_iff.mp h1 with h2 | h2
      · rw [decide_eq_true_iff.mp h2] at hem; exact absurd hem (by decide)
      · rw [decide_eq_true_iff.mp h2] at hem; exact absurd hem (by decide)
    · rw [decide_eq_true_iff.mp h1] at hem; exact absurd hem (by decide)

/-!
Claim theorems.
-/

/-- Claim C1, counterexample: the message containing both an emergency
keyword and booking details is classified by the earlier
booking-details rule, so its tag list does not begin with emergency. -/
theorem booking_details_beats_emergency_cex :
    EMERGENCY_KEYWORDS_search (clean_text ("emergency John 5551234567".data)) = true ∧
    classify none none ("emergency John 5551234567".data) =
      ⟨booking_details_received, ["booking".data], true⟩ ∧
    "booking".data ≠ "emergency".data := by
  refine ⟨by decide, by decide, by decide⟩

/-- Claim C1 (amended): for every inbound message whose normalized text
contains an emergency keyword, provided the message does not match the
booking-details detector and the booking lookback rule does not fire, the
outcome is the emergency message with tag list beginning with emergency and
needs_handoff true; emergency still always beats complaint, retail and the
plain booking trigger. -/
theorem emergency_wins_after_booking_rules (last : Option LastRow)
    (llm : Option (Except Unit (List Char))) (body : List Char)
    (hem : EMERGENCY_KEYWORDS_search (clean_text body) = true)
    (hbd : likely_booking_details (clean_text body) = false)
    (hlb : (last_was_booking_question last &&
            (!(clean_text body).isEmpty &&
             (BOOKING_DETAILS_HINT_search (clean_text body) ||
              decide (2 ≤ (splitRuns isSpaceChar (clean_text body)).length)))) = false) :
    classify last llm body = ⟨emergency_message, ["emergency".data], true⟩ := by
  have hlen : 3 ≤ (clean_text body).length := emergency_min_len hem
  have hlt : ¬((clean_text body).length < 3) := by omega
  have hth : is_thanks (clean_text body) = false :=
    no_thanks_of_emergency (clean_text body) (clean_text_idem body) hem
  have hgr : is_greeting (clean_text body) = false :=
    no_greeting_of_emergency (clean_text body) (clean_text_idem body) hem
  unfold classify cascadeSteps
  simp [hbd, hlb, hlt, hth, hgr, hem]

/-- Claim C1 (amended), witness at a concrete emergency message with no
prior exchange. -/
theorem emergency_wins_after_booking_rules_w :
    EMERGENCY_KEYWORDS_search (clean_text ("there is a fire".data)) = true ∧
    likely_booking_details (clean_text ("there is a fire".data)) = false ∧
    (last_was_booking_question (none : Option LastRow) &&
     (!(clean_text ("there is a fire".data)).isEmpty &&
      (BOOKING_DETAILS_HINT_search (clean_text ("there is a fire".data)) ||
       decide (2 ≤ (splitRuns isSpaceChar (clean_text ("there is a fire".data))).length)))) = false ∧
    classify none none ("there is a fire".data) =
      ⟨emergency_message, ["emergency".data], true⟩ :=
  ⟨by decide, by decide, by decide,
    emergency_wins_after_booking_rules none none ("there is a fire".data)
      (by decide) (by decide) (by decide)⟩

/-- The stored row of a sender who was last sent the canonical booking
prompt with the booking tag. -/
def lastBookingAsk : LastRow := ⟨booking_question_template, "booking".data⟩

/-- Claim C3: a sender whose last exchange is the booking prompt with tag
booking, sending a name and a 3-3-4 phone number, gets the
booking-details-received reply with tag booking and handoff true, whatever
the generative fallback would do. -/
theorem booking_followup_details_received (llm : Option (Except Unit (List Char))) :
    classify (some lastBookingAsk) llm ("Jane 555-867-5309".data) =
      ⟨booking_details_received, ["booking".data], true⟩ := rfl

/-- Claim C5, counterexample: the availability question with a date and a
time is not tagged booking; it is caught by the retail-intent matcher
(phrase: do you have), since the message has seven words and therefore
fails the date-or-time-only rule, and no availability matcher exists. -/
theorem availability_retail_cex :
    classify none none ("Do you have availability for 12pm tomorrow?".data) =
      ⟨retail_redirect_message, ["service_question".data], false⟩ ∧
    "service_question".data ≠ "booking".data := by
  refine ⟨by decide, by decide⟩

/-- Claim C5 (amended): for the inbound message about availability at 12pm
tomorrow with no prior exchange, the outcome is the retail redirect with
tags service_question and needs_handoff false, independent of the
generative fallback. -/
theorem availability_retail_amended (llm : Option (Except Unit (List Char))) :
    classify none llm ("Do you have availability for 12pm tomorrow?".data) =
      ⟨retail_redirect_message, ["service_question".data], false⟩ := rfl

/-- Claim C4, counterexample: with an open booking request, a single-word
digit-free follow-up is not answered with a re-issued booking prompt; it
falls through to the generative fallback, here absent, giving the default
handoff with tag other. -/
theorem lookback_no_reissue_cex :
    last_was_booking_question (some lastBookingAsk) = true ∧
    likely_booking_details (clean_text ("pedicure".data)) = false ∧
    classify (some lastBookingAsk) none ("pedicure".data) =
      ⟨handoff_normal, ["other".data], true⟩ ∧
    "other".data ≠ "booking".data ∧
    handoff_normal ≠ booking_question_template := by
  refine ⟨by decide, by decide, by decide, by decide, by decide⟩

/-- Claim C4 (amended): when the sender was awaiting booking details, a
non-empty message containing a digit-group hint or at least two
whitespace-separated tokens is accepted as booking details, producing the
booking-details-received reply with tag booking and handoff true, even if
the booking-details matcher itself does not fire; single-token digit-free
messages instead fall through to the later rules. -/
theorem lookback_accepts_details_amended (last : Option LastRow)
    (llm : Option (Except Unit (List Char))) (body : List Char)
    (h1 : last_was_booking_question last = true)
    (h2 : (clean_text body).isEmpty = false)
    (h3 : (BOOKING_DETAILS_HINT_search (clean_text body) ||
           decide (2 ≤ (splitRuns isSpaceChar (clean_text body)).length)) = true) :
    classify last llm body = ⟨booking_details_received, ["booking".data], true⟩ := by
  unfold classify cascadeSteps
  cases h0 : (!(clean_text body).isEmpty && likely_booking_details (clean_text body)) with
  | true => simp [h0]
  | false => simp [h0, h1, h2, h3]

/-- Claim C4 (amended), witness: a name plus a date word is accepted as
booking details through the lookback rule. -/
theorem lookback_accepts_details_amended_w :
    last_was_booking_question (some lastBookingAsk) = true ∧
    (clean_text ("Jane tomorrow".data)).isEmpty = false ∧
    (BOOKING_DETAILS_HINT_search (clean_text ("Jane tomorrow".data)) ||
     decide (2 ≤ (splitRuns isSpaceChar (clean_text ("Jane tomorrow".data))).length)) = true ∧
    classify (some lastBookingAsk) none ("Jane tomorrow".data) =
      ⟨booking_details_received, ["booking".data], true⟩ :=
  ⟨by decide, by decide, by decide,
    lookback_accepts_details_amended (some lastBookingAsk) none ("Jane tomorrow".data)
      (by decide) (by decide) (by decide)⟩

/-- Claim C9, counterexample: the two-character greeting is caught by the
very-short rule, so the reply is the short-message clarifier, not the
greeting. -/
theorem hi_short_clarify_cex :
    (classify none none ("hi".data)).reply_text = short_message_clarify ∧
    short_message_clarify ≠ greeting := by
  refine ⟨by decide, by decide⟩

/-- Claim C9 (amended): for the inbound message hi, whatever the prior
exchange and the generative fallback, the outcome is the short-message
clarifier with tags general and needs_handoff false, because the
very-short rule (length below three) precedes the greeting rule. -/
theorem hi_short_clarify_amended (last : Option LastRow)
    (llm : Option (Except Unit (List Char))) :
    classify last llm ("hi".data) =
      ⟨short_message_clarify, ["general".data], false⟩ := by
  have h0 : likely_booking_details (clean_text ("hi".data)) = false := by decide
  have h3 : (BOOKING_DETAILS_HINT_search (clean_text ("hi".data)) ||
             decide (2 ≤ (splitRuns isSpaceChar (clean_text ("hi".data))).length)) = false := by
    decide
  have hlt : (clean_text ("hi".data)).length < 3 := by decide
  unfold classify cascadeSteps
  simp [h0, h3, hlt]

/-- Claim C10: an inbound body that normalizes to the empty string is
always classified, without failure, as the short-message clarifier with
tags general and needs_handoff false; the exchange is logged with that
reply like any other. -/
theorem empty_body_clarify (last : Option LastRow)
    (llm : Option (Except Unit (List Char))) (body : List Char)
    (h : clean_text body = []) :
    classify last llm body = ⟨short_message_clarify, ["general".data], false⟩ ∧
    logged_reply (classify last llm body) = short_message_clarify := by
  have h1 : classify last llm body = ⟨short_message_clarify, ["general".data], false⟩ := by
    unfold classify cascadeSteps
    simp [h]
  refine ⟨h1, ?_⟩
  rw [h1]
  decide

/-- Claim C10, witness at a whitespace-only body. -/
theorem empty_body_clarify_w :
    clean_text (" ".data) = [] ∧
    (classify none none (" ".data) =
       ⟨short_message_clarify, ["general".data], false⟩ ∧
     logged_reply (classify none none (" ".data)) = short_message_clarify) :=
  ⟨by decide, empty_body_clarify none none (" ".data) (by decide)⟩

set_option maxRecDepth 4000 in
/-- Claim C7, counterexample: truncation can cut the text right after a
word, leaving a trailing space that a second application strips, so
enforce_length is not idempotent in general. -/
theorem enforce_length_not_idem_cex :
    enforce_length (enforce_length (List.replicate 239 'a' ++ [' ', 'b'])) ≠
      enforce_length (List.replicate 239 'a' ++ [' ', 'b']) := by
  decide

/-- Claim C7 (amended): the length of enforce_length is always at most
240, and enforce_length is idempotent on every input whose normalized form
fits in 240 characters; only truncation that exposes a trailing space
breaks idempotence. -/
theorem enforce_length_amended :
    (∀ x : List Char, (enforce_length x).length ≤ 240) ∧
    (∀ x : List Char, (clean_text x).length ≤ 240 →
      enforce_length (enforce_length x) = enforce_length x) := by
  constructor
  · exact enforce_length_length_le
  · intro x h
    have h1 : enforce_length x = clean_text x := take_of_len_le h
    rw [h1]
    show (clean_text (clean_text x)).take 240 = clean_text x
    rw [clean_text_idem]
    exact take_of_len_le h

/-- Claim C7 (amended), witness at a short concrete string. -/
theorem enforce_length_amended_w :
    (clean_text ("hello there".data)).length ≤ 240 ∧
    enforce_length (enforce_length ("hello there".data)) =
      enforce_length ("hello there".data) :=
  ⟨by decide, enforce_length_amended.2 ("hello there".data) (by decide)⟩

/-- Claim C2: whenever no deterministic rule fires and the generative call
raises, the classification returns the default handoff reply with tags
other and needs_handoff true.  The embedding of the handler is a total
function, which is the model-level statement that no exception escapes the
cascade boundary: the failing call is consumed as a value and mapped to
the safe default. -/
theorem llm_failure_default_handoff (last : Option LastRow) (body : List Char)
    (h0 : likely_booking_details (clean_text body) = false)
    (hA : (last_was_booking_question last &&
           (!(clean_text body).isEmpty &&
            (BOOKING_DETAILS_HINT_search (clean_text body) ||
             decide (2 ≤ (splitRuns isSpaceChar (clean_text body)).length)))) = false)
    (hB : ¬((clean_text body).length < 3))
    (hC1 : is_thanks (clean_text body) = false)
    (hC2 : is_greeting (clean_text body) = false)
    (hD1 : EMERGENCY_KEYWORDS_search (clean_text body) = false)
    (hD2 : COMPLAINT_KEYWORDS_search (clean_text body) = false)
    (hE : looks_like_date_or_time_only (clean_text body) = false)
    (hF1 : HOURS_QUERY_search (clean_text body) = false)
    (hF2 : LOCATION_QUERY_search (clean_text body) = false)
    (hG : SERVICE_DISCOVERY_search (clean_text body) = false)
    (hH : BOOKING_TRIGGER_search (clean_text body) = false)
    (hI : RETAIL_INTENT_search (clean_text body) = false) :
    classify last (some (Except.error ())) body =
      ⟨handoff_normal, ["other".data], true⟩ := by
  have hne : (clean_text body).isEmpty = false := by
    cases hcb : clean_text body with
    | nil => exact absurd (by rw [hcb]; decide) hB
    | cons a l => rfl
  unfold classify cascadeSteps
  rw [hA, h0, Bool.and_false, if_neg hB, hC1, hC2, hD1, hD2, hE, hF1, hF2, hG, hH,
    hI, hne]
  rfl

/-- Claim C2, witness: a concrete open-ended message that reaches the
generative stage, with the call failing. -/
theorem llm_failure_default_handoff_w :
    likely_booking_details (clean_text ("Can I speak with Maria about pricing".data)) = false ∧
    (last_was_booking_question (none : Option LastRow) &&
     (!(clean_text ("Can I speak with Maria about pricing".data)).isEmpty &&
      (BOOKING_DETAILS_HINT_search (clean_text ("Can I speak with Maria about pricing".data)) ||
       decide (2 ≤ (splitRuns isSpaceChar
         (clean_text ("Can I speak with Maria about pricing".data))).length)))) = false ∧
    ¬((clean_text ("Can I speak with Maria about pricing".data)).length < 3) ∧
    classify none (some (Except.error ())) ("Can I speak with Maria about pricing".data) =
      ⟨handoff_normal, ["other".data], true⟩ :=
  ⟨by decide, by decide, by decide,
    llm_failure_default_handoff none ("Can I speak with Maria about pricing".data)
      (by decide) (by decide) (by decide) (by decide) (by decide) (by decide)
      (by decide) (by decide) (by decide) (by decide) (by decide) (by decide)
      (by decide)⟩

/-! The canned replies survive enforce_length non-empty; used to show the
logged-reply invariant on every cascade branch. -/

lemma enf_booking_details_received : enforce_length booking_details_received ≠ [] := by decide

lemma enf_short_message_clarify : enforce_length short_message_clarify ≠ [] := by decide

lemma enf_thanks_reply : enforce_length thanks_reply ≠ [] := by decide

lemma enf_greeting : enforce_length greeting ≠ [] := by decide

lemma enf_emergency_message : enforce_length emergency_message ≠ [] := by decide

lemma enf_handoff_complaint : enforce_length handoff_complaint ≠ [] := by decide

lemma enf_booking_question_template : enforce_length booking_question_template ≠ [] := by decide

lemma enf_hours_unknown_message : enforce_length hours_unknown_message ≠ [] := by decide

lemma enf_location_unknown_message : enforce_length location_unknown_message ≠ [] := by decide

lemma enf_service_discovery_message : enforce_length service_discovery_message ≠ [] := by decide

lemma enf_retail_redirect_message : enforce_length retail_redirect_message ≠ [] := by decide

lemma enf_handoff_normal : enforce_length handoff_normal ≠ [] := by decide

lemma enforce_of_clean_ne_nil (s : List Char) (h : clean_text s ≠ []) :
    enforce_length (clean_text s) ≠ [] := by
  unfold enforce_length
  rw [clean_text_idem]
  exact take_240_ne_nil h

/-- Every branch of the cascade yields exactly one tag and a reply that is
still non-empty after length enforcement, the generative branches
included. -/
lemma cascade_outcome_ok (last : Option LastRow) (llm : Option (Except Unit (List Char)))
    (incoming : List Char) :
    (cascadeSteps last llm incoming).tags.length = 1 ∧
    enforce_length (cascadeSteps last llm incoming).reply_text ≠ [] := by
  unfold cascadeSteps
  cases h1 : (!incoming.isEmpty && likely_booking_details incoming) with
  | true => exact ⟨rfl, enf_booking_details_received⟩
  | false =>
  cases h2 : (last_was_booking_question last &&
      (!incoming.isEmpty &&
       (BOOKING_DETAILS_HINT_search incoming ||
        decide (2 ≤ (splitRuns isSpaceChar incoming).length)))) with
  | true => exact ⟨rfl, enf_booking_details_received⟩
  | false =>
  by_cases h3 : incoming.length < 3
  · rw [if_pos h3]
    exact ⟨rfl, enf_short_message_clarify⟩
  · rw [if_neg h3]
    cases h4 : is_thanks incoming with
    | true => exact ⟨rfl, enf_thanks_reply⟩
    | false =>
    cases h5 : is_greeting incoming with
    | true => exact ⟨rfl, enf_greeting⟩
    | false =>
    cases h6 : EMERGENCY_KEYWORDS_search incoming with
    | true => exact ⟨rfl, enf_emergency_message⟩
    | false =>
    cases h7 : COMPLAINT_KEYWORDS_search incoming with
    | true => exact ⟨rfl, enf_handoff_complaint⟩
    | false =>
    cases h8 : looks_like_date_or_time_only incoming with
    | true => exact ⟨rfl, enf_booking_question_template⟩
    | false =>
    cases h9 : HOURS_QUERY_search incoming with
    | true => exact ⟨rfl, enf_hours_unknown_message⟩
    | false =>
    cases h10 : LOCATION_QUERY_search incoming with
    | true => exact ⟨rfl, enf_location_unknown_message⟩
    | false =>
    cases h11 : SERVICE_DISCOVERY_search incoming with
    | true => exact ⟨rfl, enf_service_discovery_message⟩
    | false =>
    cases h12 : BOOKING_TRIGGER_search incoming with
    | true => exact ⟨rfl, enf_booking_question_template⟩
    | false =>
    cases h13 : RETAIL_INTENT_search incoming with
    | true => exact ⟨rfl, enf_retail_redirect_message⟩
    | false =>
    cases llm with
    | none => exact ⟨rfl, enf_handoff_normal⟩
    | some res =>
      cases hie : incoming.isEmpty with
      | true => exact ⟨rfl, enf_handoff_normal⟩
      | false =>
        cases res with
        | error e => exact ⟨rfl, enf_handoff_normal⟩
        | ok content =>
          refine ⟨rfl, ?_⟩
          show enforce_length (if (clean_text (stripWS content)).isEmpty then greeting
              else clean_text (stripWS content)) ≠ []
          cases hre : (clean_text (stripWS content)).isEmpty with
          | true => exact enf_greeting
          | false =>
            have hr : clean_text (stripWS content) ≠ [] := by
              intro hnil
              rw [hnil] at hre
              exact absurd hre (by decide)
            exact enforce_of_clean_ne_nil _ hr

/-- Claim C6, counterexample: the source checks whether any tag of the
list is important, not the first one, so a list whose primary tag is
general but which also carries booking does trigger the alert, against the
claim. -/
theorem alert_any_tag_cex :
    send_alert_if_needed ["general".data, "booking".data] true = true ∧
    (["general".data, "booking".data].headD [] ∈ IMPORTANT_TAGS → False) := by
  refine ⟨by decide, by decide⟩

/-- Claim C6 (amended): the alert is attempted if and only if there is a
handoff and some tag of the list is important; for tag list general alone
no alert is attempted even with the handoff flag forced true; every tag
list the cascade produces has exactly one element, on which the any-tag
condition coincides with the primary-tag condition of the claim. -/
theorem alert_condition_amended :
    (∀ h : Bool, send_alert_if_needed ["general".data] h = false) ∧
    (∀ (last : Option LastRow) (llm : Option (Except Unit (List Char))) (body : List Char),
        (classify last llm body).tags.length = 1) ∧
    (∀ (tags : List (List Char)) (h : Bool), tags.length = 1 →
        send_alert_if_needed tags h = (h && decide (tags.headD [] ∈ IMPORTANT_TAGS))) := by
  refine ⟨?_, ?_, ?_⟩
  · intro h
    cases h <;> decide
  · intro last llm body
    exact (cascade_outcome_ok last llm (clean_text body)).1
  · intro tags h hlen
    cases tags with
    | nil => simp at hlen
    | cons t rest =>
      cases rest with
      | nil =>
        cases h with
        | false => simp [send_alert_if_needed]
        | true =>
          cases ht : decide (t ∈ IMPORTANT_TAGS) with
          | false => simp [send_alert_if_needed, ht]
          | true => simp [send_alert_if_needed, ht]
      | cons u more => simp at hlen

/-- Claim C6 (amended), witness for the singleton condition at a concrete
important tag. -/
theorem alert_condition_amended_w :
    ([("booking".data : List Char)].length = 1) ∧
    send_alert_if_needed ["booking".data] true =
      (true && decide (["booking".data].headD [] ∈ IMPORTANT_TAGS)) :=
  ⟨by decide, alert_condition_amended.2.2 ["booking".data] true (by decide)⟩

/-- Claim C8: every persisted exchange, on every cascade path including
both generative-fallback paths (model failure and model success, empty or
not), has a non-empty tag list and a logged reply that is non-empty and at
most 240 characters. -/
theorem exchange_invariants (last : Option LastRow)
    (llm : Option (Except Unit (List Char))) (body : List Char) :
    (classify last llm body).tags ≠ [] ∧
    logged_reply (classify last llm body) ≠ [] ∧
    (logged_reply (classify last llm body)).length ≤ 240 := by
  have h : (classify last llm body).tags.length = 1 ∧
      enforce_length (classify last llm body).reply_text ≠ [] :=
    cascade_outcome_ok last llm (clean_text body)
  refine ⟨?_, h.2, enforce_length_length_le _⟩
  intro hnil
  have h1 := h.1
  rw [hnil] at h1
  simp at h1
